import Mathlib

/-!
Verification of the `bevy_svg_map` vector-path pipeline against its design
specification.  The Rust sources (`src/lib.rs`, `src/style.rs`,
`src/lyon_utils.rs`) are shallowly embedded: machine floats become `ℚ`
(or `ℝ` where the code applies a transcendental gamma curve), Rust panics
become `Except Panic`, and external collaborator crates (`svgtypes`,
`roxmltree`, `lyon`) are modelled at their interfaces.
-/

namespace BevySvgMap

/-- Panics are modelled as exceptional results carrying the panic message. -/
abbrev Panic := String

/-- An 8-bit RGBA color, as produced by bevy's `Color::rgba_u8`. -/
structure Color where
  red : ℕ
  green : ℕ
  blue : ℕ
  alpha : ℕ
deriving DecidableEq, Repr

/-- Model of `bevy::Color::BLACK` (the default of `StyleStrategy::color_decider`). -/
def blackColor : Color := ⟨0, 0, 0, 255⟩

/-- Model of `bevy::Color::RED` (fallback color used by `SvgWhole::color_decider`). -/
def redColor : Color := ⟨255, 0, 0, 255⟩

/-- Lyon's `LineCap` enumeration (interface of the lyon collaborator crate). -/
inductive LineCap where
  | Butt
  | Round
  | Square
deriving DecidableEq, Repr

/-- Lyon's `LineJoin` enumeration (interface of the lyon collaborator crate). -/
inductive LineJoin where
  | Miter
  | MiterClip
  | Round
  | Bevel
deriving DecidableEq, Repr

/-! ## Numeric string parsing (interface of external parsing, modelled) -/

/-- All characters are decimal digits (true on the empty list). -/
def allDigits (l : List Char) : Bool := l.all (·.isDigit)

/-- The natural number denoted by a list of decimal digits. -/
def natOfDigits (l : List Char) : ℕ :=
  l.foldl (fun acc c => acc * 10 + (c.toNat - 48)) 0

/-- Rust's `str::split(char)` at the character level: the list of fragments
between occurrences of `sep` (never empty; splitting the empty string gives
one empty fragment, as in Rust). -/
def splitChar (sep : Char) : List Char → List (List Char)
  | [] => [[]]
  | c :: t =>
      let r := splitChar sep t
      if c == sep then [] :: r
      else
        match r with
        | h :: t' => (c :: h) :: t'
        | [] => [[c]]

/-- Modelled from the spec: the decimal part of the float grammar accepted by
Rust's `str::parse::<f32>` (external standard-library code, not under `src/`):
an integer part and an optional fractional part after `.`, at least one of
which must be nonempty. -/
def parseMantissa (cs : List Char) : Option ℚ :=
  let ip := cs.takeWhile (fun c => !(c == '.'))
  let rest := cs.dropWhile (fun c => !(c == '.'))
  match rest with
  | [] => if ip.isEmpty then none
          else if allDigits ip then some (natOfDigits ip) else none
  | _ :: fp =>
      if ip.isEmpty && fp.isEmpty then none
      else if allDigits ip && allDigits fp then
        some ((natOfDigits ip : ℚ) + (natOfDigits fp : ℚ) / (10 : ℚ) ^ fp.length)
      else none

/-- Modelled from the spec: the (signed) exponent part of the float grammar. -/
def parseExponent (cs : List Char) : Option ℤ :=
  let (sgn, t) : ℤ × List Char :=
    match cs with
    | '+' :: t => (1, t)
    | '-' :: t => (-1, t)
    | t => (1, t)
  if t.isEmpty then none
  else if allDigits t then some (sgn * natOfDigits t) else none

/-- Modelled from the spec: Rust's `str::parse::<f32>` float parsing, used by
`stroke_opacity`/`fill_opacity` (the literals `inf`/`NaN` are not modelled;
only finite decimal syntax).  Returns the exact rational value. -/
def parseFloatChars (cs : List Char) : Option ℚ :=
  let (sgn, cs) : ℚ × List Char :=
    match cs with
    | '+' :: t => (1, t)
    | '-' :: t => (-1, t)
    | t => (1, t)
  let mant := cs.takeWhile (fun c => !(c == 'e' || c == 'E'))
  let rest := cs.dropWhile (fun c => !(c == 'e' || c == 'E'))
  match rest with
  | [] => (parseMantissa mant).map (fun m => sgn * m)
  | _ :: exptail =>
      match parseMantissa mant, parseExponent exptail with
      | some m, some e => some (sgn * m * (10 : ℚ) ^ e)
      | _, _ => none

/-- Runs `parseFloatChars` on a string's characters. -/
def parseFloat (s : String) : Option ℚ := parseFloatChars s.data

/-- Modelled from the spec: the unit suffixes of the SVG length grammar
accepted by `svgtypes::Length` (an external collaborator crate). -/
def unitSuffixes : List String :=
  ["px", "em", "ex", "cm", "mm", "in", "pt", "pc", "%"]

/-- Modelled from the spec: `svgtypes::Length::from_str` (external crate) —
a number with an optional unit; the numeric magnitude is returned and the
unit ignored, exactly as `stroke_width` uses it. -/
def lengthFromStr (s : String) : Option ℚ :=
  let cs := s.data
  match unitSuffixes.findSome?
      (fun u =>
        if u.data.isSuffixOf cs then
          parseFloatChars (cs.take (cs.length - u.data.length))
        else none) with
  | some q => some q
  | none => parseFloatChars cs

/-! ## Paint (color literal) parsing -/

/-- Model of `svgtypes::Paint` (external collaborator crate), restricted to the
variants the style module inspects. -/
inductive Paint where
  | color (red green blue : ℕ)
  | noColor
  | currentColor
deriving DecidableEq, Repr

/-- Value of a hexadecimal digit. -/
def hexDigitVal (c : Char) : Option ℕ :=
  if c.isDigit then some (c.toNat - 48)
  else if 'a' ≤ c && c ≤ 'f' then some (c.toNat - 97 + 10)
  else if 'A' ≤ c && c ≤ 'F' then some (c.toNat - 65 + 10)
  else none

/-- Sequence a list of optional values (explicit recursion, used in place of
the iterator-based collection in the Rust code). -/
def mapO {α β : Type} (f : α → Option β) : List α → Option (List β)
  | [] => some []
  | a :: t =>
    match f a, mapO f t with
    | some b, some bs => some (b :: bs)
    | _, _ => none

/-- Modelled from the spec: `svgtypes::Paint::from_str` (external crate) for
the literals the pipeline relies on — `none`, `currentColor` and hexadecimal
`#rgb`/`#rrggbb` colors (named colors are not needed by any claim). -/
def paintFromStr (s : String) : Option Paint :=
  if s = "none" then some .noColor
  else if s = "currentColor" then some .currentColor
  else
    match s.data with
    | '#' :: rest =>
        match mapO hexDigitVal rest with
        | some [r1, r2, g1, g2, b1, b2] =>
            some (.color (16 * r1 + r2) (16 * g1 + g2) (16 * b1 + b2))
        | some [r, g, b] => some (.color (17 * r) (17 * g) (17 * b))
        | _ => none
    | _ => none

/-! ## The gamma transfer curve (`style.rs` lines 7–18) -/

/-- Rust's saturating `as u8` cast applied to a (nonnegative-or-clamped)
float: truncate toward zero, clamping into `[0, 255]`. -/
noncomputable def rustCastU8 (x : ℝ) : ℕ :=
  if x ≤ 0 then 0 else min 255 (Int.toNat ⌊x⌋)

/-- The piecewise transfer value computed by `linear_to_nonlinear_srgb`
before the `* 255.0` scaling (`style.rs` lines 9–16). -/
noncomputable def srgbRes (num : ℝ) : ℝ :=
  if num ≤ 0 ∨ 0.99 ≤ num then num
  else if num ≤ 0.0031308 then num * 12.92
  else 1.055 * Real.rpow num (1 / 2.4) - 0.055

/-- Embedding of `linear_to_nonlinear_srgb` (`style.rs` lines 8–18): the transfer value
scaled by 255 and cast with `as u8`.  Machine `f32` arithmetic is idealized
over `ℝ`. -/
noncomputable def linear_to_nonlinear_srgb (num : ℝ) : ℕ :=
  rustCastU8 (srgbRes num * 255)

/-- Embedding of `to_color` (`style.rs` lines 20–26): only `Paint::Color` yields a color;
`none`/`currentColor`/unparseable strings yield `Option.none`. -/
def to_color (color : String) (opacity : ℕ) : Option Color :=
  match paintFromStr color with
  | some (.color r g b) => some ⟨r, g, b, opacity⟩
  | _ => none

/-! ## The style model (`style.rs`) -/

/-- Embedding of `SvgStyle` (`style.rs` line 65): a string-keyed map.  The Rust `HashMap`
is modelled as an association list where insertion removes any previous
binding of the key, so lookup returns the most recently inserted value, as
`HashMap::insert`/`get` do. -/
structure SvgStyle where
  pairs : List (String × String)
deriving DecidableEq, Repr

/-- Association-list lookup (first match). -/
def lookupKey : List (String × String) → String → Option String
  | [], _ => none
  | (k, v) :: t, key => if k = key then some v else lookupKey t key

/-- Model of `HashMap::get` on the style map. -/
def SvgStyle.get (st : SvgStyle) (key : String) : Option String :=
  lookupKey st.pairs key

/-- Model of `HashMap::insert`: the new binding shadows (replaces) any previous one. -/
def insertKV (m : List (String × String)) (kv : String × String) :
    List (String × String) :=
  kv :: m.filter (fun p => decide (p.1 ≠ kv.1))

/-- One `;`-fragment of a style string, as processed by
`<SvgStyle as From<&str>>::from` (`style.rs` lines 212–214): split on `:`,
take two pieces, index both.  Indexing `a[1]` panics (→ `none`) when the
fragment contains no `:`. -/
def parseKV (hunk : List Char) : Option (String × String) :=
  match (splitChar ':' hunk).take 2 with
  | [k, v] => some (String.mk k, String.mk v)
  | _ => none

/-- Embedding of `SvgStyle::from(&str)` (`style.rs` lines 207–219).  Returns `none` when
the construction panics (a fragment without `:` makes `a[1]` go out of
bounds). -/
def svgStyleFrom (style : String) : Option SvgStyle :=
  (mapO parseKV (splitChar ';' style.data)).map (fun l => ⟨l.foldl insertKV []⟩)

/-- Convenience: build a style from a well-formed style string (empty map
when construction would panic). -/
def mkStyle (s : String) : SvgStyle := (svgStyleFrom s).getD ⟨[]⟩

/-- The panic message of `SvgStyle::panic_access` (`style.rs` lines 199–202). -/
def panicMsg (key : String) : String :=
  "Field " ++ key ++
    " (used to build svg-based components) is missing! Check your SVG file"

/-- Embedding of `SvgStyle::panic_access` (`style.rs` lines 196–204): return the raw value
or panic naming the missing key. -/
def SvgStyle.panic_access (st : SvgStyle) (key : String) : Except Panic String :=
  match st.get key with
  | some v => .ok v
  | none => .error (panicMsg key)

/-- Embedding of `SvgStyle::stroke_opacity` (`style.rs` lines 126–131): parse the value as
a float when present, default `1.0` when absent, parse error otherwise. -/
def stroke_opacity (st : SvgStyle) : Except Unit ℚ :=
  match st.get "stroke-opacity" with
  | some c => match parseFloat c with
              | some q => .ok q
              | none => .error ()
  | none => .ok 1

/-- Embedding of `SvgStyle::fill_opacity` (`style.rs` lines 132–137). -/
def fill_opacity (st : SvgStyle) : Except Unit ℚ :=
  match st.get "fill-opacity" with
  | some c => match parseFloat c with
              | some q => .ok q
              | none => .error ()
  | none => .ok 1

/-- Embedding of `SvgStyle::stroke` (`style.rs` lines 68–76): `panic_access("stroke")`,
then the color combined with the gamma-encoded stroke opacity (opacity parse
failures fall back to alpha `255`). -/
noncomputable def SvgStyle.stroke (st : SvgStyle) : Except Panic (Option Color) :=
  match st.panic_access "stroke" with
  | .error e => .error e
  | .ok c =>
      .ok (to_color c
        (match stroke_opacity st with
         | .ok q => linear_to_nonlinear_srgb (q : ℝ)
         | .error _ => 255))

/-- Embedding of `SvgStyle::fill` (`style.rs` lines 77–85). -/
noncomputable def SvgStyle.fill (st : SvgStyle) : Except Panic (Option Color) :=
  match st.panic_access "fill" with
  | .error e => .error e
  | .ok c =>
      .ok (to_color c
        (match fill_opacity st with
         | .ok q => linear_to_nonlinear_srgb (q : ℝ)
         | .error _ => 255))

/-- Embedding of `SvgStyle::stroke_width` (`style.rs` lines 138–144): note that the key is
read through `panic_access`, so an absent `stroke-width` key panics. -/
def SvgStyle.stroke_width (st : SvgStyle) : Except Panic (Option ℚ) :=
  match st.panic_access "stroke-width" with
  | .error e => .error e
  | .ok v => .ok (lengthFromStr v)

/-- Embedding of `SvgStyle::stroke_linecap` (`style.rs` lines 159–169). -/
def SvgStyle.stroke_linecap (st : SvgStyle) : Option LineCap :=
  match st.get "stroke-linecap" with
  | some c =>
      if c = "butt" then some .Butt
      else if c = "round" then some .Round
      else if c = "square" then some .Square
      else none
  | none => none

/-- Embedding of `SvgStyle::stroke_linejoin` (`style.rs` lines 184–195): note the literal
table — `"butt"` maps to `Bevel`, `"miterclip"` (no hyphen) to `MiterClip`,
and `"bevel"` is not matched at all. -/
def SvgStyle.stroke_linejoin (st : SvgStyle) : Option LineJoin :=
  match st.get "stroke-linejoin" with
  | some c =>
      if c = "butt" then some .Bevel
      else if c = "miter" then some .Miter
      else if c = "miterclip" then some .MiterClip
      else if c = "round" then some .Round
      else none
  | none => none

/-! ## Path commands (`svgtypes::PathSegment`, interface of the external
tokenizer) -/

/-- Model of `svgtypes::PathSegment` (external collaborator crate): the tagged command
variants produced by the path tokenizer, with raw operands and the
absolute/relative flag. -/
inductive PathSegment where
  | moveTo (abs : Bool) (x y : ℚ)
  | lineTo (abs : Bool) (x y : ℚ)
  | horizontalLineTo (abs : Bool) (x : ℚ)
  | verticalLineTo (abs : Bool) (y : ℚ)
  | curveTo (abs : Bool) (x1 y1 x2 y2 x y : ℚ)
  | smoothCurveTo (abs : Bool) (x2 y2 x y : ℚ)
  | quadratic (abs : Bool) (x1 y1 x y : ℚ)
  | smoothQuadratic (abs : Bool) (x y : ℚ)
  | ellipticalArc (abs : Bool) (rx ry xAxisRotation : ℚ)
      (largeArc sweep : Bool) (x y : ℚ)
  | closePath (abs : Bool)
deriving DecidableEq, Repr

/-- Model of `svgtypes::PathSegment::x` (external crate): the end-point x operand;
`VerticalLineTo` and `ClosePath` have none. -/
def PathSegment.x : PathSegment → Option ℚ
  | .moveTo _ x _ => some x
  | .lineTo _ x _ => some x
  | .horizontalLineTo _ x => some x
  | .curveTo _ _ _ _ _ x _ => some x
  | .smoothCurveTo _ _ _ x _ => some x
  | .quadratic _ _ _ x _ => some x
  | .smoothQuadratic _ x _ => some x
  | .ellipticalArc _ _ _ _ _ _ x _ => some x
  | _ => none

/-- Model of `svgtypes::PathSegment::y` (external crate): the end-point y operand;
`HorizontalLineTo` and `ClosePath` have none. -/
def PathSegment.y : PathSegment → Option ℚ
  | .moveTo _ _ y => some y
  | .lineTo _ _ y => some y
  | .verticalLineTo _ y => some y
  | .curveTo _ _ _ _ _ _ y => some y
  | .smoothCurveTo _ _ _ _ y => some y
  | .quadratic _ _ _ _ y => some y
  | .smoothQuadratic _ _ y => some y
  | .ellipticalArc _ _ _ _ _ _ _ y => some y
  | _ => none

/-- The fold step inside `max_coords` (`lib.rs` lines 37–47). -/
def maxStep (acc : ℚ × ℚ) (n : PathSegment) : ℚ × ℚ :=
  ((match n.x with
    | some x => max |x| acc.1
    | none => acc.1),
   (match n.y with
    | some y => max |y| acc.2
    | none => acc.2))

/-- The fold of `max_coords` (`lib.rs` lines 32–48) over the already-parsed
command sequence of the whole document. -/
def maxCoordsFold (segs : List PathSegment) : ℚ × ℚ :=
  segs.foldl maxStep (0, 0)

/-! ## Extraction layer (`lib.rs` lines 15–20) -/

/-- One node of the parsed XML tree (interface of the `roxmltree`
collaborator): only the two attributes the extraction layer inspects. -/
structure XmlNode where
  style : Option String
  d : Option String
deriving DecidableEq, Repr

/-- Sequence a list through a fallible map, propagating the first panic
(explicit recursion mirroring the iterator chain). -/
def mapE {α β : Type} (f : α → Except Panic β) :
    List α → Except Panic (List β)
  | [] => .ok []
  | a :: t =>
    match f a, mapE f t with
    | .error e, _ => .error e
    | .ok _, .error e => .error e
    | .ok b, .ok bs => .ok (b :: bs)

/-- The per-node body of `take_lines_with_style`: `style.unwrap()` and
`d.unwrap()` (`lib.rs` line 18). -/
def extractNode (n : XmlNode) : Except Panic (String × String) :=
  match n.style, n.d with
  | some s, some dd => .ok (s, dd)
  | _, _ => .error "called Option::unwrap on a None value"

/-- Embedding of `take_lines_with_style` (`lib.rs` lines 15–20): keep the descendants
carrying a `d` attribute, then read `style` and `d` through `unwrap()` —
which panics when a `d`-bearing node has no `style` attribute. -/
def take_lines_with_style (nodes : List XmlNode) :
    Except Panic (List (String × String)) :=
  mapE extractNode (nodes.filter (fun n => n.d.isSome))

/-! ## Tokenization and the two load entry points (`lib.rs`) -/

/-- The outcome of running the external path tokenizer
(`svgtypes::PathParser` / `lyon::build_path`) on one node's path-data
string: either the command sequence or a `MalformedPathData` panic. -/
abbrev PathData := Except Panic (List PathSegment)

/-- A shape node as seen by `tokenize_svg`: the raw style string plus its
path-data, the latter represented by its tokenization outcome (the
character-level tokenizer lives in the external `svgtypes` crate). -/
structure PathNode where
  style : String
  d : PathData

/-- Embedding of `StyleSegment` (`style.rs` lines 31–34). -/
structure StyleSegment where
  style : SvgStyle
  traces : PathData

/-- Embedding of `StyleSegment::from((&str, &str))` (`style.rs` lines 36–42): parse the
style string (panicking on a malformed one) and keep the path data. -/
def styleSegOfNode (n : PathNode) : Except Panic StyleSegment :=
  match svgStyleFrom n.style with
  | some st => .ok ⟨st, n.d⟩
  | none => .error "index out of bounds: the len is 1 but the index is 1"

/-- Embedding of `tokenize_svg` (`lib.rs` lines 23–30): build a `StyleSegment` per node;
`SvgStyle::from` panics (index out of bounds) on a malformed style string. -/
def tokenize_svg (nodes : List PathNode) : Except Panic (List StyleSegment) :=
  mapE styleSegOfNode nodes

/-- Embedding of `max_coords` (`lib.rs` lines 32–48): `tokenize_svg(..).unwrap()`, then
every node's path data is parsed with `.unwrap()` — any malformed path
panics — and the operands are folded. -/
def max_coords (nodes : List PathNode) : Except Panic (ℚ × ℚ) := do
  let segs ← tokenize_svg nodes
  let parsed ← mapE StyleSegment.traces segs
  pure (maxCoordsFold parsed.flatten)

/-- The caller-supplied strategy (`StyleStrategy`, `style.rs` lines 229–234).
The trait in `src/style.rs` declares `color_decider` (default
`Color::BLACK`) and `component_decider` (an ECS side effect, not modelled).
Modelled from the spec: `width_decider`, `linecap_decider` and
`linejoin_decider` are invoked by `lib.rs` but missing from the trait in
`src/`; per the spec (§4.1, §8) the caller's defaults are `0.264583`,
`butt` and `miter`.  Deciders may panic (they can call the panicking style
accessors), hence the `Except` codomain. -/
structure StyleStrategy where
  color_decider : SvgStyle → Except Panic Color := fun _ => .ok blackColor
  width_decider : SvgStyle → Except Panic ℚ := fun _ => .ok (264583 / 1000000)
  linecap_decider : SvgStyle → Except Panic LineCap := fun _ => .ok .Butt
  linejoin_decider : SvgStyle → Except Panic LineJoin := fun _ => .ok .Miter

/-- The strategy with every default (the `MyStrategy` of the tests). -/
def defaultStrategy : StyleStrategy := {}

/-- The per-path output of `load_svg_map`: the material color and the stroke
options chosen by the strategy (the tessellated mesh itself is produced by
the external lyon collaborator and is not further inspected). -/
structure StrokeRecord where
  color : Color
  width : ℚ
  cap : LineCap
  join : LineJoin
deriving DecidableEq, Repr

/-- Embedding of `load_svg_map` (`lib.rs` lines 74–108): compute the document extent
(which already `unwrap()`s every path parse), re-tokenize, and for each
segment create the material color, `build_path(..).unwrap()` the path data,
and build the stroke options from the strategy's deciders.  Any malformed
path or style aborts the whole load with a panic. -/
def load_svg_map (nodes : List PathNode) (strategy : StyleStrategy) :
    Except Panic (List StrokeRecord) := do
  let _extent ← max_coords nodes
  let segs ← tokenize_svg nodes
  mapE
    (fun seg => do
      let color ← strategy.color_decider seg.style
      let _path ← seg.traces
      let w ← strategy.width_decider seg.style
      let cap ← strategy.linecap_decider seg.style
      let lj ← strategy.linejoin_decider seg.style
      pure ⟨color, w, cap, lj⟩)
    segs

/-- Embedding of `SvgWhole::color_decider` (`style.rs` lines 241–249): the parsed stroke
color, with `Color::RED` as fallback when it cannot be parsed. -/
noncomputable def svgWhole_color_decider (st : SvgStyle) : Except Panic Color :=
  (st.stroke).map (fun o => o.getD redColor)

/-- Modelled from the spec: `color_fill_decider` is invoked by `load_svg`
(`lib.rs` line 153) but absent from the `StyleStrategy` trait in
`src/style.rs`; per the spec (§4.6) it resolves the fill color with a fixed
fallback, mirroring how `SvgWhole` resolves the stroke color. -/
noncomputable def svgWhole_color_fill_decider (st : SvgStyle) : Except Panic Color :=
  (st.fill).map (fun o => o.getD redColor)

/-- A child entity spawned by `load_svg`: one stroke pass or one fill pass
with its material color. -/
inductive Child where
  | strokeChild (c : Color)
  | fillChild (c : Color)
deriving DecidableEq, Repr

/-- The source document as `load_svg` sees it: the `<svg>` element's
`width`/`height` attributes (read by `max_coords_doc`, `lib.rs` lines
51–70) and the shape nodes. -/
structure SvgDoc where
  width : ℚ
  height : ℚ
  nodes : List PathNode

/-- Embedding of `load_svg` (`lib.rs` lines 111–166): per segment, build the path
(`unwrap`), then spawn a stroke child iff `style.stroke()` returns a color
(panicking when the `stroke` key is absent) and a fill child iff
`style.fill()` returns a color.  The scale/translation arithmetic feeds the
coordinate transform only and does not affect which children are spawned.
`SvgWhole`'s width/cap/join deciders (missing from the trait in `src/`) are
spec-modelled constant defaults and cannot panic, so they are not bound. -/
noncomputable def load_svg (doc : SvgDoc) (width height : ℚ) (position : ℚ × ℚ) :
    Except Panic (List Child) := do
  let extent ← max_coords doc.nodes
  let _scale := (width / doc.width, height / doc.height)
  let _translate := (-(extent.1 / 2), -(extent.2 / 2), position)
  let segs ← tokenize_svg doc.nodes
  let children ← mapE
    (fun seg => do
      let _path ← seg.traces
      let strokeRes ← seg.style.stroke
      let strokeChildren ←
        match strokeRes with
        | some _ =>
            (svgWhole_color_decider seg.style).map (fun c => [Child.strokeChild c])
        | none => .ok []
      let fillRes ← seg.style.fill
      let fillChildren ←
        match fillRes with
        | some _ =>
            (svgWhole_color_fill_decider seg.style).map (fun c => [Child.fillChild c])
        | none => .ok []
      pure (strokeChildren ++ fillChildren))
    segs
  pure children.flatten

/-! ## Specification-side definitions (the spec's words, for comparison) -/

/-- The claimed literal table for `stroke-linecap`: `butt|round|square` map
to the correspondingly named caps, anything else is absent. -/
def linecapOfLiteral (c : String) : Option LineCap :=
  if c = "butt" then some .Butt
  else if c = "round" then some .Round
  else if c = "square" then some .Square
  else none

/-- The literal table actually implemented for `stroke-linejoin` (the
amended table): `butt ↦ Bevel`, `miter ↦ Miter`, `miterclip ↦ MiterClip`,
`round ↦ Round`; the literals `bevel` and `miter-clip` are absent. -/
def linejoinOfLiteral (c : String) : Option LineJoin :=
  if c = "butt" then some .Bevel
  else if c = "miter" then some .Miter
  else if c = "miterclip" then some .MiterClip
  else if c = "round" then some .Round
  else none

/-- The claimed coordinate-bearing X operands of a command (the spec's
"every coordinate-bearing X operand", which includes curve control
points; radii and rotation angles are lengths/angles, not coordinates). -/
def operandXs : PathSegment → List ℚ
  | .moveTo _ x _ => [x]
  | .lineTo _ x _ => [x]
  | .horizontalLineTo _ x => [x]
  | .verticalLineTo _ _ => []
  | .curveTo _ x1 _ x2 _ x _ => [x1, x2, x]
  | .smoothCurveTo _ x2 _ x _ => [x2, x]
  | .quadratic _ x1 _ x _ => [x1, x]
  | .smoothQuadratic _ x _ => [x]
  | .ellipticalArc _ _ _ _ _ _ x _ => [x]
  | .closePath _ => []

/-- The claimed coordinate-bearing Y operands of a command. -/
def operandYs : PathSegment → List ℚ
  | .moveTo _ _ y => [y]
  | .lineTo _ _ y => [y]
  | .horizontalLineTo _ _ => []
  | .verticalLineTo _ y => [y]
  | .curveTo _ _ y1 _ y2 _ y => [y1, y2, y]
  | .smoothCurveTo _ _ y2 _ y => [y2, y]
  | .quadratic _ _ y1 _ y => [y1, y]
  | .smoothQuadratic _ _ y => [y]
  | .ellipticalArc _ _ _ _ _ _ _ y => [y]
  | .closePath _ => []

/-- Maximum absolute value of a list of rationals (0 for the empty list). -/
def absMax (l : List ℚ) : ℚ := l.foldr (fun q r => max |q| r) 0

/-- The extent claimed by the spec: the maximum absolute value over every
coordinate-bearing operand (control points included). -/
def operandExtent (segs : List PathSegment) : ℚ × ℚ :=
  (absMax (segs.map operandXs).flatten, absMax (segs.map operandYs).flatten)

/-- The extent the code computes (amended claim): the maximum absolute
value over the end-point operands only, i.e. over `PathSegment.x`/`y`. -/
def endpointExtent (segs : List PathSegment) : ℚ × ℚ :=
  (absMax (segs.filterMap PathSegment.x), absMax (segs.filterMap PathSegment.y))

/-- The two-node document used for claim C1: the first node's path data is
malformed (the tokenizer panics on it), the second is fine. -/
def exMixedNodes : List PathNode :=
  [⟨"a:b", Except.error "bad path"⟩,
   ⟨"c:d", Except.ok [PathSegment.moveTo true 1 2]⟩]

/-- The spec's description of the alpha encoding: values ≤ 0 or ≥ 0.99 pass
through unchanged, values ≤ 0.0031308 scale linearly by 12.92, otherwise
the power curve `1.055·v^(1/2.4) − 0.055`; each then scaled to [0, 255]. -/
noncomputable def specSrgbEncode (v : ℝ) : ℕ :=
  if v ≤ 0 ∨ 0.99 ≤ v then rustCastU8 (v * 255)
  else if v ≤ 0.0031308 then rustCastU8 (v * 12.92 * 255)
  else rustCastU8 ((1.055 * Real.rpow v (1 / 2.4) - 0.055) * 255)

/-- The one-path document of claim C8: style `stroke:#ff0000;fill:none`,
path data `M0,0 L10,0 L10,10 Z`. -/
def exC8doc : SvgDoc :=
  ⟨10, 10,
   [⟨"stroke:#ff0000;fill:none",
     Except.ok [PathSegment.moveTo true 0 0, PathSegment.lineTo true 10 0,
       PathSegment.lineTo true 10 10, PathSegment.closePath true]⟩]⟩

/-! ## Helper lemmas -/

lemma parseKV_isSome (h : List Char) :
    (parseKV h).isSome = true ↔ 2 ≤ (splitChar ':' h).length := by
  unfold parseKV
  rcases hl : splitChar ':' h with _ | ⟨a, _ | ⟨b, t⟩⟩ <;> simp [hl]

lemma mapO_isSome {α β : Type} (f : α → Option β) (l : List α) :
    (mapO f l).isSome = true ↔ ∀ a ∈ l, (f a).isSome = true := by
  induction l with
  | nil => simp [mapO]
  | cons a t ih =>
      cases hfa : f a <;> cases hmt : mapO f t <;>
        simp_all [mapO, hfa, hmt]

lemma mapE_error_of_mem {α β : Type} (f : α → Except Panic β) {l : List α}
    {a : α} (ha : a ∈ l) {e : Panic} (hfa : f a = .error e) :
    ∃ e', mapE f l = .error e' := by
  induction l with
  | nil => cases ha
  | cons b t ih =>
      rcases List.mem_cons.mp ha with rfl | hat
      · exact ⟨e, by simp [mapE, hfa]⟩
      · cases hfb : f b with
        | error e2 => exact ⟨e2, by simp [mapE, hfb]⟩
        | ok v =>
            rcases ih hat with ⟨e', he'⟩
            exact ⟨e', by simp [mapE, hfb, he']⟩

lemma mapE_ok_mem {α β : Type} (f : α → Except Panic β) {l : List α}
    {bs : List β} (h : mapE f l = .ok bs) {a : α} (ha : a ∈ l) :
    ∃ b, f a = .ok b := by
  induction l generalizing bs with
  | nil => cases ha
  | cons c t ih =>
      cases hfc : f c with
      | error e => simp [mapE, hfc] at h
      | ok b =>
          cases hmt : mapE f t with
          | error e => simp [mapE, hfc, hmt] at h
          | ok bs' =>
              rcases List.mem_cons.mp ha with rfl | hat
              · exact ⟨b, hfc⟩
              · exact ih hmt hat

@[simp] lemma except_bind_ok {α β : Type} (a : α) (f : α → Except Panic β) :
    (Except.ok a >>= f) = f a := rfl

@[simp] lemma except_bind_error {α β : Type} (e : Panic) (f : α → Except Panic β) :
    ((Except.error e : Except Panic α) >>= f) = Except.error e := rfl

@[simp] lemma except_map_ok {α β : Type} (a : α) (f : α → β) :
    (f <$> (Except.ok a : Except Panic α)) = Except.ok (f a) := rfl

@[simp] lemma except_map_error {α β : Type} (e : Panic) (f : α → β) :
    (f <$> (Except.error e : Except Panic α)) = Except.error e := rfl

@[simp] lemma except_Map_ok {α β : Type} (a : α) (f : α → β) :
    Except.map f (Except.ok a : Except Panic α) = Except.ok (f a) := rfl

@[simp] lemma except_Map_error {α β : Type} (e : Panic) (f : α → β) :
    Except.map f (Except.error e : Except Panic α) = Except.error e := rfl

lemma mapE_ok_mem_image {α β : Type} (f : α → Except Panic β) {l : List α}
    {bs : List β} (h : mapE f l = .ok bs) {a : α} (ha : a ∈ l) :
    ∃ b ∈ bs, f a = .ok b := by
  induction l generalizing bs with
  | nil => cases ha
  | cons c t ih =>
      cases hfc : f c with
      | error e => simp [mapE, hfc] at h
      | ok b =>
          cases hmt : mapE f t with
          | error e => simp [mapE, hfc, hmt] at h
          | ok bs' =>
              have hbs : bs = b :: bs' := by
                rw [mapE, hfc, hmt] at h
                exact (Except.ok.inj h).symm
              subst hbs
              rcases List.mem_cons.mp ha with rfl | hat
              · exact ⟨b, List.mem_cons_self .., hfc⟩
              · rcases ih hmt hat with ⟨b', hb', hfb'⟩
                exact ⟨b', List.mem_cons_of_mem _ hb', hfb'⟩

lemma mapE_map_of_forall_ok {α β : Type} (f : α → Except Panic β)
    (g : α → β) (l : List α) (h : ∀ a ∈ l, f a = .ok (g a)) :
    mapE f l = .ok (l.map g) := by
  induction l with
  | nil => simp [mapE]
  | cons a t ih =>
      have ha := h a (List.mem_cons_self ..)
      have ht := ih (fun x hx => h x (List.mem_cons_of_mem _ hx))
      simp [mapE, ha, ht]

lemma absMax_nonneg (l : List ℚ) : 0 ≤ absMax l := by
  induction l with
  | nil => simp [absMax]
  | cons a t ih =>
      simp only [absMax, List.foldr_cons] at *
      exact le_trans ih (le_max_right _ _)

lemma absMax_cons (q : ℚ) (l : List ℚ) : absMax (q :: l) = max |q| (absMax l) := rfl

lemma max_max_left_swap (p q r : ℚ) : max (max p q) r = max q (max p r) := by
  rw [max_comm p q, max_assoc]

lemma foldl_maxStep (segs : List PathSegment) :
    ∀ a b : ℚ, 0 ≤ a → 0 ≤ b →
      segs.foldl maxStep (a, b) =
        (max a (absMax (segs.filterMap PathSegment.x)),
         max b (absMax (segs.filterMap PathSegment.y))) := by
  induction segs with
  | nil =>
      intro a b ha hb
      simp [absMax, max_eq_left ha, max_eq_left hb]
  | cons s t ih =>
      intro a b ha hb
      have hxa : ∀ x : ℚ, 0 ≤ max |x| a := fun x => le_trans ha (le_max_right _ _)
      have hyb : ∀ y : ℚ, 0 ≤ max |y| b := fun y => le_trans hb (le_max_right _ _)
      rcases hx : s.x with _ | x <;> rcases hy : s.y with _ | y
      · simp only [List.foldl_cons, maxStep, hx, hy]
        rw [ih a b ha hb, List.filterMap_cons_none hx, List.filterMap_cons_none hy]
      · simp only [List.foldl_cons, maxStep, hx, hy]
        rw [ih a (max |y| b) ha (hyb y), List.filterMap_cons_none hx,
          List.filterMap_cons_some hy, absMax_cons, max_max_left_swap]
      · simp only [List.foldl_cons, maxStep, hx, hy]
        rw [ih (max |x| a) b (hxa x) hb, List.filterMap_cons_some hx,
          List.filterMap_cons_none hy, absMax_cons, max_max_left_swap]
      · simp only [List.foldl_cons, maxStep, hx, hy]
        rw [ih (max |x| a) (max |y| b) (hxa x) (hyb y),
          List.filterMap_cons_some hx, List.filterMap_cons_some hy,
          absMax_cons, absMax_cons, max_max_left_swap, max_max_left_swap]

/-! ## Claim C2 -/

/-- Claim C2 counterexample: constructing an `SvgStyle` from the input
string `"stroke"` (one fragment, no `:` separator) does not succeed: the
construction panics (`a[1]` is out of bounds) instead of skipping the
malformed pair. -/
theorem C2_counterexample : svgStyleFrom "stroke" = none := rfl

/-- Claim C2 (amended): constructing an `SvgStyle` succeeds exactly when
every `;`-separated fragment of the input contains a `:` separator; a
fragment without `:` makes construction panic rather than being skipped. -/
theorem C2_amended (s : String) :
    (svgStyleFrom s).isSome = true ↔
      ∀ frag ∈ splitChar ';' s.data, 2 ≤ (splitChar ':' frag).length := by
  have h1 : (svgStyleFrom s).isSome = (mapO parseKV (splitChar ';' s.data)).isSome := by
    unfold svgStyleFrom
    cases mapO parseKV (splitChar ';' s.data) <;> rfl
  rw [h1, mapO_isSome]
  exact forall_congr' fun frag => imp_congr_right fun _ => parseKV_isSome frag

/-! ## Claim C3 -/

/-- Claim C3 counterexample: `stroke_linejoin` does not map the documented
linejoin literals to their correspondingly named values — `"bevel"` and
`"miter-clip"` yield `none`, while the cap literal `"butt"` yields
`some Bevel` instead of `none`. -/
theorem C3_counterexample :
    (mkStyle "stroke-linejoin:bevel").stroke_linejoin = none ∧
    (mkStyle "stroke-linejoin:miter-clip").stroke_linejoin = none ∧
    (mkStyle "stroke-linejoin:butt").stroke_linejoin = some LineJoin.Bevel :=
  ⟨rfl, rfl, rfl⟩

/-- Claim C3 (amended): `stroke_linecap` maps exactly the literals
`butt`/`round`/`square` to the correspondingly named caps (anything else is
absent), while `stroke_linejoin` implements the table `butt ↦ Bevel`,
`miter ↦ Miter`, `miterclip ↦ MiterClip`, `round ↦ Round`, with every other
literal — including `bevel` and the hyphenated `miter-clip` — absent. -/
theorem C3_amended (st : SvgStyle) :
    st.stroke_linecap = (st.get "stroke-linecap").bind linecapOfLiteral ∧
    st.stroke_linejoin = (st.get "stroke-linejoin").bind linejoinOfLiteral := by
  constructor
  · cases h : st.get "stroke-linecap" <;>
      simp [SvgStyle.stroke_linecap, linecapOfLiteral, h]
  · cases h : st.get "stroke-linejoin" <;>
      simp [SvgStyle.stroke_linejoin, linejoinOfLiteral, h]

/-! ## Claim C4 -/

/-- Claim C4: evaluation of the code at the failing input — querying
`stroke_width()` on a style without a `stroke-width` key does not return an
"absent" result; it panics through `panic_access`. -/
theorem C4_eval :
    (mkStyle "stroke:#000000").stroke_width =
      Except.error (panicMsg "stroke-width") := rfl

/-! ## Claim C7 -/

/-- Claim C7 counterexample: the computed extent uses only end-point
operands.  For a single cubic curve whose control points reach x = 100 but
whose end point is (10, 10), `max_coords` yields (10, 10) while the
claimed "maximum over every coordinate-bearing operand" is (100, 10). -/
theorem C7_counterexample :
    max_coords [⟨"stroke:#000000",
        Except.ok [PathSegment.curveTo true 100 0 100 10 10 10]⟩] =
      Except.ok (10, 10) ∧
    operandExtent [PathSegment.curveTo true 100 0 100 10 10 10] = (100, 10) ∧
    max_coords [⟨"stroke:#000000",
        Except.ok [PathSegment.curveTo true 100 0 100 10 10 10]⟩] ≠
      Except.ok (operandExtent [PathSegment.curveTo true 100 0 100 10 10 10]) := by
  refine ⟨rfl, rfl, ?_⟩
  intro h
  rw [show operandExtent [PathSegment.curveTo true 100 0 100 10 10 10]
        = (100, 10) from rfl] at h
  rw [show max_coords [⟨"stroke:#000000",
        Except.ok [PathSegment.curveTo true 100 0 100 10 10 10]⟩]
        = Except.ok ((10 : ℚ), (10 : ℚ)) from rfl] at h
  have := Except.ok.inj h
  have hx : (10 : ℚ) = 100 := congrArg Prod.fst this
  norm_num at hx

/-- Claim C7 (amended): the fold of `max_coords` computes, for each axis,
the maximum absolute value over the end-point operands only
(`PathSegment.x`/`y`; control-point operands are not inspected), and on the
single command `M 10,20` the extent is (10, 20). -/
theorem C7_amended :
    (∀ segs : List PathSegment, maxCoordsFold segs = endpointExtent segs) ∧
    maxCoordsFold [PathSegment.moveTo true 10 20] = (10, 20) := by
  constructor
  · intro segs
    unfold maxCoordsFold endpointExtent
    rw [foldl_maxStep segs 0 0 le_rfl le_rfl]
    rw [max_eq_right (absMax_nonneg _), max_eq_right (absMax_nonneg _)]
  · rfl

/-! ## Claim C9 -/

/-- Claim C9 counterexample: extracting from a tree containing a node that
has path data but no style attribute fails (the `unwrap()` of the `style`
attribute panics), contradicting "does not fail". -/
theorem C9_counterexample :
    take_lines_with_style [⟨none, some "M0,0"⟩] =
      Except.error "called Option::unwrap on a None value" := rfl

/-- Claim C9 (amended): extraction yields, in document order, one
(style, path-data) pair for every node carrying path data — nodes lacking
path data are excluded entirely, never as empty segments — provided every
node that has path data also has a style attribute; a node with path data
but no style attribute makes the extraction panic instead. -/
theorem C9_amended (nodes : List XmlNode)
    (h : ∀ n ∈ nodes, n.d.isSome = true → n.style.isSome = true) :
    take_lines_with_style nodes =
      Except.ok ((nodes.filter (fun n => n.d.isSome)).map
        (fun n => (n.style.getD "", n.d.getD ""))) := by
  unfold take_lines_with_style
  apply mapE_map_of_forall_ok
  intro n hn
  rcases List.mem_filter.mp hn with ⟨hmem, hd⟩
  rcases Option.isSome_iff_exists.mp (h n hmem hd) with ⟨s, hs⟩
  rcases Option.isSome_iff_exists.mp hd with ⟨dd, hdd⟩
  simp [extractNode, hs, hdd]

/-- Claim C9 witness: a tree with a well-styled path node, a node with a
style but no path data, and a node with neither, extracts to exactly the
one pair. -/
theorem C9_witness :
    take_lines_with_style
        [⟨some "s1", some "d1"⟩, ⟨some "s2", none⟩, ⟨none, none⟩] =
      Except.ok [("s1", "d1")] := by
  have h := C9_amended
    [⟨some "s1", some "d1"⟩, ⟨some "s2", none⟩, ⟨none, none⟩]
    (by decide)
  simpa using h

/-! ## Claim C1 -/

/-- Claim C1 counterexample: loading a document in which exactly one path
segment is malformed does not skip that segment and continue — the whole
load aborts with the panic, and no geometry is produced for the well-formed
second segment. -/
theorem C1_counterexample :
    load_svg_map exMixedNodes defaultStrategy = Except.error "bad path" := rfl

/-- Claim C1 (amended): for every document containing a path segment whose
path data the tokenizer cannot consume, `load_svg_map` aborts the whole
load with a panic (the `unwrap()` inside `max_coords`/the per-segment loop),
whatever the strategy; no other segment is processed into geometry. -/
theorem C1_amended (nodes : List PathNode) (strategy : StyleStrategy)
    (hbad : ∃ n ∈ nodes, ∃ e, n.d = Except.error e) :
    ∃ msg, load_svg_map nodes strategy = Except.error msg := by
  obtain ⟨n, hn, e, hne⟩ := hbad
  have hmc : ∃ msg, max_coords nodes = Except.error msg := by
    cases htok : tokenize_svg nodes with
    | error e2 => exact ⟨e2, by simp [max_coords, htok]⟩
    | ok segs =>
        obtain ⟨seg, hseg, hfa⟩ := mapE_ok_mem_image styleSegOfNode htok hn
        have htr : seg.traces = Except.error e := by
          cases hsf : svgStyleFrom n.style with
          | none => simp [styleSegOfNode, hsf] at hfa
          | some st =>
              simp only [styleSegOfNode, hsf] at hfa
              have := Except.ok.inj hfa
              rw [← this, ← hne]
        obtain ⟨e', he'⟩ := mapE_error_of_mem StyleSegment.traces hseg htr
        exact ⟨e', by simp [max_coords, htok, he']⟩
  obtain ⟨msg, hm⟩ := hmc
  exact ⟨msg, by simp [load_svg_map, hm]⟩

/-- Claim C1 witness: the amended claim applied to the concrete two-node
document with one malformed segment. -/
theorem C1_witness :
    ∃ msg, load_svg_map exMixedNodes defaultStrategy = Except.error msg :=
  C1_amended exMixedNodes defaultStrategy
    ⟨⟨"a:b", Except.error "bad path"⟩, by simp [exMixedNodes], "bad path", rfl⟩

/-! ## Claim C5 -/

/-- Claim C5: querying `stroke()` (resp. `fill()`) on a style whose
`stroke` (resp. `fill`) key is absent is a hard fault: it halts with the
`panic_access` error message, which names the missing style property, and
no default color is substituted. -/
theorem C5_missing_key_is_hard_fault (st : SvgStyle) :
    (st.get "stroke" = none → st.stroke = Except.error (panicMsg "stroke")) ∧
    (st.get "fill" = none → st.fill = Except.error (panicMsg "fill")) ∧
    (∃ pre post, panicMsg "stroke" = pre ++ "stroke" ++ post) ∧
    (∃ pre post, panicMsg "fill" = pre ++ "fill" ++ post) := by
  refine ⟨fun h => ?_, fun h => ?_,
    ⟨"Field ",
     " (used to build svg-based components) is missing! Check your SVG file",
     rfl⟩,
    ⟨"Field ",
     " (used to build svg-based components) is missing! Check your SVG file",
     rfl⟩⟩
  · simp [SvgStyle.stroke, SvgStyle.panic_access, h]
  · simp [SvgStyle.fill, SvgStyle.panic_access, h]

/-- Claim C5 witness: concrete styles lacking the `stroke` (resp. `fill`)
key make `stroke()` (resp. `fill()`) halt with the message naming that key. -/
theorem C5_witness :
    (mkStyle "fill:none").stroke = Except.error (panicMsg "stroke") ∧
    (mkStyle "stroke:#000000").fill = Except.error (panicMsg "fill") :=
  ⟨(C5_missing_key_is_hard_fault (mkStyle "fill:none")).1 rfl,
   (C5_missing_key_is_hard_fault (mkStyle "stroke:#000000")).2.1 rfl⟩

/-! ## Claim C10 -/

/-- Claim C10: when the `stroke-opacity` (resp. `fill-opacity`) value is
present but does not parse as a float, `stroke()` (resp. `fill()`) does not
propagate the failure: it silently uses alpha 255 and still returns a color
whenever the color literal itself parses. -/
theorem C10_opacity_parse_failure_is_silent (st : SvgStyle) :
    (∀ s, st.get "stroke-opacity" = some s → parseFloat s = none →
      st.stroke = (st.panic_access "stroke").map (fun c => to_color c 255) ∧
      ∀ cs r g b, st.get "stroke" = some cs →
        paintFromStr cs = some (Paint.color r g b) →
        st.stroke = Except.ok (some ⟨r, g, b, 255⟩)) ∧
    (∀ s, st.get "fill-opacity" = some s → parseFloat s = none →
      st.fill = (st.panic_access "fill").map (fun c => to_color c 255) ∧
      ∀ cs r g b, st.get "fill" = some cs →
        paintFromStr cs = some (Paint.color r g b) →
        st.fill = Except.ok (some ⟨r, g, b, 255⟩)) := by
  constructor
  · intro s hs hparse
    have hop : stroke_opacity st = Except.error () := by
      simp [stroke_opacity, hs, hparse]
    have hmain : st.stroke = (st.panic_access "stroke").map (fun c => to_color c 255) := by
      cases hpa : st.panic_access "stroke" with
      | error e => simp [SvgStyle.stroke, hpa, Except.map]
      | ok c => simp [SvgStyle.stroke, hpa, hop, Except.map]
    refine ⟨hmain, fun cs r g b hcs hpaint => ?_⟩
    have hpa : st.panic_access "stroke" = Except.ok cs := by
      simp [SvgStyle.panic_access, hcs]
    rw [hmain, hpa]
    simp [Except.map, to_color, hpaint]
  · intro s hs hparse
    have hop : fill_opacity st = Except.error () := by
      simp [fill_opacity, hs, hparse]
    have hmain : st.fill = (st.panic_access "fill").map (fun c => to_color c 255) := by
      cases hpa : st.panic_access "fill" with
      | error e => simp [SvgStyle.fill, hpa, Except.map]
      | ok c => simp [SvgStyle.fill, hpa, hop, Except.map]
    refine ⟨hmain, fun cs r g b hcs hpaint => ?_⟩
    have hpa : st.panic_access "fill" = Except.ok cs := by
      simp [SvgStyle.panic_access, hcs]
    rw [hmain, hpa]
    simp [Except.map, to_color, hpaint]

/-- Claim C10 witness: with `stroke:#ff0000` and the unparseable
`stroke-opacity:abc`, `stroke()` still returns red at full alpha 255. -/
theorem C10_witness :
    (mkStyle "stroke:#ff0000;stroke-opacity:abc").stroke =
      Except.ok (some ⟨255, 0, 0, 255⟩) :=
  ((C10_opacity_parse_failure_is_silent
      (mkStyle "stroke:#ff0000;stroke-opacity:abc")).1
    "abc" rfl rfl).2 "#ff0000" 255 0 0 rfl rfl

/-! ## Claim C6 -/

lemma srgb_one : linear_to_nonlinear_srgb 1 = 255 := by
  unfold linear_to_nonlinear_srgb srgbRes rustCastU8
  rw [if_pos (by norm_num : (1 : ℝ) ≤ 0 ∨ (0.99 : ℝ) ≤ 1)]
  rw [if_neg (by norm_num : ¬((1 : ℝ) * 255 ≤ 0))]
  rw [show (1 : ℝ) * 255 = ((255 : ℤ) : ℝ) by norm_num, Int.floor_intCast]
  rfl

lemma rpow_half_lowbound : (0.707 : ℝ) ≤ Real.rpow 0.5 (1 / 2.4) := by
  have h1 : Real.rpow 0.5 (1 / 2 : ℝ) ≤ Real.rpow 0.5 (1 / 2.4) :=
    Real.rpow_le_rpow_of_exponent_ge (by norm_num) (by norm_num) (by norm_num)
  have h2 : (0.707 : ℝ) ≤ Real.rpow 0.5 (1 / 2 : ℝ) := by
    have hs : Real.sqrt 0.5 = Real.rpow 0.5 (1 / 2 : ℝ) := Real.sqrt_eq_rpow 0.5
    rw [← hs]
    exact Real.le_sqrt_of_sq_le (by norm_num)
  linarith

/-- Claim C6: the alpha channel written by `stroke()`/`fill()` is exactly
the piecewise linear-to-perceptual encoding of the opacity scaled to 8
bits — the code's curve agrees with the spec's piecewise formula on every
input, `stroke()` (resp. `fill()`) writes `linear_to_nonlinear_srgb` of the
parsed stroke-opacity (resp. fill-opacity) into the alpha channel, and for
opacity 0.5 the result is the gamma-branch encoding, which differs from
0.5 scaled linearly. -/
theorem C6_gamma_corrected_alpha :
    (∀ v : ℝ, linear_to_nonlinear_srgb v = specSrgbEncode v) ∧
    (∀ (st : SvgStyle) (q : ℚ), stroke_opacity st = Except.ok q →
      ∀ cs r g b, st.get "stroke" = some cs →
        paintFromStr cs = some (Paint.color r g b) →
        st.stroke = Except.ok (some ⟨r, g, b, linear_to_nonlinear_srgb (q : ℝ)⟩)) ∧
    (∀ (st : SvgStyle) (q : ℚ), fill_opacity st = Except.ok q →
      ∀ cs r g b, st.get "fill" = some cs →
        paintFromStr cs = some (Paint.color r g b) →
        st.fill = Except.ok (some ⟨r, g, b, linear_to_nonlinear_srgb (q : ℝ)⟩)) ∧
    linear_to_nonlinear_srgb 0.5 =
      rustCastU8 ((1.055 * Real.rpow 0.5 (1 / 2.4) - 0.055) * 255) ∧
    linear_to_nonlinear_srgb 0.5 ≠ rustCastU8 (0.5 * 255) := by
  have hgamma : linear_to_nonlinear_srgb 0.5 =
      rustCastU8 ((1.055 * Real.rpow 0.5 (1 / 2.4) - 0.055) * 255) := by
    unfold linear_to_nonlinear_srgb srgbRes
    rw [if_neg (by norm_num), if_neg (by norm_num)]
  refine ⟨?_, ?_, ?_, hgamma, ?_⟩
  · intro v
    unfold linear_to_nonlinear_srgb srgbRes specSrgbEncode
    by_cases h1 : v ≤ 0 ∨ 0.99 ≤ v
    · rw [if_pos h1, if_pos h1]
    · rw [if_neg h1, if_neg h1]
      by_cases h2 : v ≤ 0.0031308
      · rw [if_pos h2, if_pos h2]
      · rw [if_neg h2, if_neg h2]
  · intro st q hq cs r g b hcs hpaint
    have hpa : st.panic_access "stroke" = Except.ok cs := by
      simp [SvgStyle.panic_access, hcs]
    simp [SvgStyle.stroke, hpa, hq, to_color, hpaint]
  · intro st q hq cs r g b hcs hpaint
    have hpa : st.panic_access "fill" = Except.ok cs := by
      simp [SvgStyle.panic_access, hcs]
    simp [SvgStyle.fill, hpa, hq, to_color, hpaint]
  · have ha := rpow_half_lowbound
    rw [hgamma]
    have hx : (176 : ℝ) ≤ (1.055 * Real.rpow 0.5 (1 / 2.4) - 0.055) * 255 := by
      nlinarith
    have hfl : (176 : ℤ) ≤ ⌊(1.055 * Real.rpow 0.5 (1 / 2.4) - 0.055) * 255⌋ :=
      Int.le_floor.mpr (by exact_mod_cast hx)
    have hge : 176 ≤ rustCastU8 ((1.055 * Real.rpow 0.5 (1 / 2.4) - 0.055) * 255) := by
      unfold rustCastU8
      rw [if_neg (by linarith)]
      refine le_min (by norm_num) ?_
      omega
    have h127 : rustCastU8 (0.5 * 255) = 127 := by
      unfold rustCastU8
      rw [if_neg (by norm_num)]
      rw [show (0.5 : ℝ) * 255 = 127.5 by norm_num]
      rw [show ⌊(127.5 : ℝ)⌋ = 127 by
        rw [Int.floor_eq_iff]
        norm_num]
      rfl
    rw [h127]
    omega

/-- Claim C6 witness: a style with `stroke:#ff0000` (resp. `fill:#00ff00`)
and an absent opacity key (so the parsed opacity is the default 1) gets
exactly the encoded alpha channel from `stroke()` (resp. `fill()`). -/
theorem C6_witness :
    (mkStyle "stroke:#ff0000").stroke =
      Except.ok (some ⟨255, 0, 0, linear_to_nonlinear_srgb ((1 : ℚ) : ℝ)⟩) ∧
    (mkStyle "fill:#00ff00").fill =
      Except.ok (some ⟨0, 255, 0, linear_to_nonlinear_srgb ((1 : ℚ) : ℝ)⟩) :=
  ⟨C6_gamma_corrected_alpha.2.1 (mkStyle "stroke:#ff0000") 1 rfl
     "#ff0000" 255 0 0 rfl rfl,
   C6_gamma_corrected_alpha.2.2.1 (mkStyle "fill:#00ff00") 1 rfl
     "#00ff00" 0 255 0 rfl rfl⟩

/-! ## Claim C8 -/

/-- Claim C8: loading the one-path document whose style is
`stroke:#ff0000;fill:none` produces exactly one stroke child and no fill
child, and its material color is red. -/
theorem C8_end_to_end :
    load_svg exC8doc 1 2 (0, 0) = Except.ok [Child.strokeChild redColor] := by
  have hstroke : (mkStyle "stroke:#ff0000;fill:none").stroke =
      Except.ok (some redColor) := by
    have hpa : (mkStyle "stroke:#ff0000;fill:none").panic_access "stroke" =
        Except.ok "#ff0000" := rfl
    have hop : stroke_opacity (mkStyle "stroke:#ff0000;fill:none") =
        Except.ok 1 := rfl
    simp only [SvgStyle.stroke, hpa, hop]
    rw [show ((1 : ℚ) : ℝ) = (1 : ℝ) by norm_num, srgb_one]
    rfl
  have hfill : (mkStyle "stroke:#ff0000;fill:none").fill = Except.ok none := by
    have hpa : (mkStyle "stroke:#ff0000;fill:none").panic_access "fill" =
        Except.ok "none" := rfl
    simp only [SvgStyle.fill, hpa]
    rfl
  have hdec : svgWhole_color_decider (mkStyle "stroke:#ff0000;fill:none") =
      Except.ok redColor := by
    simp [svgWhole_color_decider, hstroke]
  have hmc : max_coords exC8doc.nodes = Except.ok (10, 10) := rfl
  have htok : tokenize_svg exC8doc.nodes =
      Except.ok [⟨mkStyle "stroke:#ff0000;fill:none",
        Except.ok [PathSegment.moveTo true 0 0, PathSegment.lineTo true 10 0,
          PathSegment.lineTo true 10 10, PathSegment.closePath true]⟩] := rfl
  simp only [load_svg, hmc, htok, except_bind_ok]
  simp [mapE, hstroke, hfill, hdec]

end BevySvgMap
